import Mathlib

/-!
Shallow embedding of the movie recommendation engine of
src/movie_recommender.py (class MovieRecommender), together with proofs
about its loaders and query operations.

Modelling conventions:
- Python floats are modelled as rationals, so averages are exact.
- Python dicts are modelled as insertion-ordered association lists;
  assignment replaces the value in place, a fresh key is appended at the
  end, which matches the iteration order of Python dicts.
- Python strip and casefold are modelled over ASCII: strip removes ASCII
  whitespace characters at both ends, casefold lowercases A..Z.
- int() and float() are modelled on plain decimal literals with an
  optional sign (and an optional fractional part for float); scientific
  notation and special values are outside the modelled input space.
- Every query method returns a pair of its Python return value and the
  resulting object state, so that absence of mutation is a theorem
  rather than a convention.
-/

attribute [local semireducible] Rat.add Rat.sub Rat.mul Rat.inv

/-- ASCII whitespace recognised by the model of str.strip. -/
def wsChar (c : Char) : Bool :=
  c = ' ' || c = '\t' || c = '\n' || c = '\r' || c = '\x0b' || c = '\x0c'

/-- Model of str.strip over ASCII whitespace. -/
def pytrim (s : String) : String :=
  ⟨((s.data.dropWhile wsChar).reverse.dropWhile wsChar).reverse⟩

/-- Lowercase a single ASCII letter, other characters unchanged. -/
def lowerChar (c : Char) : Char :=
  if 'A' ≤ c && c ≤ 'Z' then Char.ofNat (c.toNat + 32) else c

/-- Model of str.casefold over ASCII. -/
def pylower (s : String) : String :=
  ⟨s.data.map lowerChar⟩

/-- The canonicalisation helper _canon of the source: strip then casefold. -/
def canon (s : String) : String := pylower (pytrim s)

/-- Auxiliary splitter: accumulates the current field in reverse. -/
def splitPipeAux : List Char → List Char → List String
  | [], acc => [⟨acc.reverse⟩]
  | c :: rest, acc =>
    if c = '|' then ⟨acc.reverse⟩ :: splitPipeAux rest []
    else splitPipeAux rest (c :: acc)

/-- Model of str.split on the single character pipe separator. -/
def splitPipe (s : String) : List String := splitPipeAux s.data []

/-- Digit accumulator for the decimal parsers. -/
def goDigits : Nat → List Char → Option Nat
  | acc, [] => some acc
  | acc, c :: t =>
    if '0' ≤ c && c ≤ '9' then goDigits (acc * 10 + (c.toNat - 48)) t else none

/-- Model of Python int() on an optionally signed run of decimal digits. -/
def parseInt? (s : String) : Option Int :=
  match s.data with
  | [] => none
  | '+' :: t => match t with
    | [] => none
    | _ => (goDigits 0 t).map Int.ofNat
  | '-' :: t => match t with
    | [] => none
    | _ => (goDigits 0 t).map (fun n => -(n : Int))
  | cs => (goDigits 0 cs).map Int.ofNat

/-- Value of a digit list read most significant first, junk-free by allDigits. -/
def digitsVal (cs : List Char) : Nat :=
  cs.foldl (fun acc c => acc * 10 + (c.toNat - 48)) 0

/-- Check that every character is a decimal digit. -/
def allDigits (cs : List Char) : Bool :=
  cs.all (fun c => '0' ≤ c && c ≤ '9')

/-- Unsigned decimal with an optional fractional part, as accepted by float(). -/
def parseUDec? (cs : List Char) : Option ℚ :=
  let intPart := cs.takeWhile (fun c => c ≠ '.')
  let rest := cs.dropWhile (fun c => c ≠ '.')
  match rest with
  | [] =>
    if allDigits intPart && !intPart.isEmpty then some (digitsVal intPart : ℚ) else none
  | _ :: frac =>
    if allDigits intPart && allDigits frac && !(intPart.isEmpty && frac.isEmpty) then
      some ((digitsVal intPart : ℚ) + (digitsVal frac : ℚ) / ((10 : ℚ) ^ frac.length))
    else none

/-- Model of Python float() on plain signed decimal literals. -/
def parseRat? (s : String) : Option ℚ :=
  match s.data with
  | [] => none
  | '+' :: t => parseUDec? t
  | '-' :: t => (parseUDec? t).map Neg.neg
  | cs => parseUDec? cs

/-- Lookup in an insertion-ordered association list (model of dict get). -/
def alookup {K V : Type} [DecidableEq K] : List (K × V) → K → Option V
  | [], _ => none
  | (a, b) :: t, k => if a = k then some b else alookup t k

/-- Dict assignment: replace in place when the key exists, else append. -/
def aupsert {K V : Type} [DecidableEq K] (k : K) (v : V) : List (K × V) → List (K × V)
  | [] => [(k, v)]
  | (a, b) :: t => if a = k then (a, v) :: t else (a, b) :: aupsert k v t

/-- defaultdict(list) append: extend the list of an existing key in place,
or append a fresh key whose list holds the single value. -/
def appendGroup {K V : Type} [DecidableEq K] (k : K) (v : V) :
    List (K × List V) → List (K × List V)
  | [] => [(k, [v])]
  | (a, vs) :: t =>
    if a = k then (a, vs ++ [v]) :: t else (a, vs) :: appendGroup k v t

/-- Python slicing l[:n] for an arbitrary integer n. -/
def pyTake {α : Type} (n : Int) (l : List α) : List α :=
  if 0 ≤ n then l.take n.toNat else l.take (l.length - n.natAbs)

/-- Mean of a list of rationals; division by zero yields zero on the empty list. -/
def listMean (l : List ℚ) : ℚ := l.sum / (l.length : ℚ)

/-- Lexicographic code-point comparison of character lists, the model of the
Python string comparison. -/
def strLtB : List Char → List Char → Bool
  | [], [] => false
  | [], _ :: _ => true
  | _ :: _, [] => false
  | a :: as, b :: bs => if a < b then true else if b < a then false else strLtB as bs

/-- Python strict string comparison. -/
def pyLt (a b : String) : Prop := strLtB a.data b.data = true

/-- Python non-strict string comparison, stated as absence of the reverse
strict comparison. -/
def pyLe (a b : String) : Prop := strLtB b.data a.data = false

instance : DecidableRel pyLt := fun a b => by unfold pyLt; infer_instance

instance : DecidableRel pyLe := fun a b => by unfold pyLe; infer_instance

/-- Ranking order: by score descending, ties by name ascending; this is the
Python ascending order of the sort key (-avg, name). -/
def rankLE (a b : String × ℚ) : Prop :=
  b.2 < a.2 ∨ (a.2 = b.2 ∧ pyLe a.1 b.1)

instance : DecidableRel rankLE := fun a b => by
  unfold rankLE; infer_instance

/-- Model of the Python stable sort with key (-avg, name). -/
def sortRank (l : List (String × ℚ)) : List (String × ℚ) :=
  l.insertionSort rankLE

/-- Strict order on the max keys (avg, display) of user_preference_for_genre:
lexicographic with the Python string comparison in the second slot. -/
def prefLt (p q : ℚ × String) : Prop :=
  p.1 < q.1 ∨ (p.1 = q.1 ∧ pyLt p.2 q.2)

instance : DecidableRel prefLt := fun p q => by
  unfold prefLt; infer_instance

/-- Model of Python max with a key function into (avg, display) pairs: keeps
the first element on a tie of keys, replaces only on strict key increase. -/
def pymax {α : Type} (key : α → ℚ × String) (a : α) (l : List α) : α :=
  l.foldl (fun best x => if prefLt (key best) (key x) then x else best) a

/-- The in-memory tables and flags of a MovieRecommender instance. -/
structure RecState where
  movies : List (Int × (String × String))
  movie_name_to_id : List (String × Int)
  name_display : List (String × String)
  genre_display : List (String × String)
  ratings : List (String × List (ℚ × Int))
  user_ratings : List (Int × List (String × ℚ))
  movies_loaded : Bool
  ratings_loaded : Bool
  deriving Repr, DecidableEq

/-- The state built by __init__. -/
def initState : RecState :=
  ⟨[], [], [], [], [], [], false, false⟩

/-- The helper _display_name: the stored display form of a canonical name,
falling back to the trimmed raw name. -/
def displayName (s : RecState) (raw : String) : String :=
  (alookup s.name_display (canon raw)).getD (pytrim raw)

/-- The display lookup used for genres inside user_preference_for_genre:
genre_display.get(cg, cg). -/
def dispG (s : RecState) (cg : String) : String :=
  (alookup s.genre_display cg).getD cg

/-- One iteration of the load_movies line loop, acting on state and the
pair of loaded and skipped counters. -/
def loadMovieLine (acc : RecState × Nat × Nat) (line : String) : RecState × Nat × Nat :=
  let (s, loaded, skipped) := acc
  let l := pytrim line
  if l = "" then acc
  else
    match splitPipe l with
    | [p0, p1, p2] =>
      match parseInt? (pytrim p1) with
      | none => (s, loaded, skipped + 1)
      | some mid =>
        let genre := pytrim p0
        let movie_name := pytrim p2
        let c := canon movie_name
        let gc := canon genre
        let s' : RecState :=
          { s with
            movies := aupsert mid (movie_name, genre) s.movies,
            movie_name_to_id := aupsert c mid s.movie_name_to_id,
            name_display := aupsert c movie_name s.name_display,
            genre_display :=
              if gc ≠ "" ∧ (alookup s.genre_display gc).isNone then
                s.genre_display ++ [(gc, genre)]
              else s.genre_display }
        (s', loaded + 1, skipped)
    | _ => (s, loaded, skipped + 1)

/-- The loader load_movies on a list of already-read lines, returning the
new state and the loaded and skipped counters. -/
def load_movies (s : RecState) (lines : List String) : RecState × Nat × Nat :=
  let (s', loaded, skipped) := lines.foldl loadMovieLine (s, 0, 0)
  ({ s' with movies_loaded := true }, loaded, skipped)

/-- One iteration of the load_ratings line loop; the accumulator carries the
state, the local seen_pairs set, and the loaded, skipped and duplicate
counters. -/
def loadRatingLine (acc : RecState × List (String × Int) × Nat × Nat × Nat)
    (line : String) : RecState × List (String × Int) × Nat × Nat × Nat :=
  let (s, seen, loaded, skipped, dup) := acc
  let l := pytrim line
  if l = "" then acc
  else
    match splitPipe l with
    | [p0, p1, p2] =>
      match parseRat? (pytrim p1), parseInt? (pytrim p2) with
      | some rating, some user_id =>
        let movie_name_raw := pytrim p0
        let c := canon movie_name_raw
        let (seen', dup') :=
          if (c, user_id) ∈ seen then (seen, dup + 1) else ((c, user_id) :: seen, dup)
        let display := displayName s movie_name_raw
        let s' : RecState :=
          { s with
            ratings := appendGroup display (rating, user_id) s.ratings,
            user_ratings := appendGroup user_id (display, rating) s.user_ratings }
        (s', seen', loaded + 1, skipped, dup')
      | _, _ => (s, seen, loaded, skipped + 1, dup)
    | _ => (s, seen, loaded, skipped + 1, dup)

/-- The loader load_ratings on a list of already-read lines, returning the
new state and the loaded, skipped and duplicate counters. -/
def load_ratings (s : RecState) (lines : List String) : RecState × Nat × Nat × Nat :=
  let (s', _, loaded, skipped, dup) := lines.foldl loadRatingLine (s, [], 0, 0, 0)
  ({ s' with ratings_loaded := true }, loaded, skipped, dup)

/-- The query calculate_average_rating; the second component is the object
state after the call. -/
def calculate_average_rating (s : RecState) (movie_name : String) : ℚ × RecState :=
  if movie_name = "" then (0, s)
  else
    let display := displayName s movie_name
    match alookup s.ratings display with
    | none => (0, s)
    | some l => if l = [] then (0, s) else ((l.map (fun p => p.1)).sum / (l.length : ℚ), s)

/-- The query movie_popularity: every display name that has stored ratings,
scored by its average, sorted descending with the name tie-break. -/
def movie_popularity (s : RecState) (n : Int) : List (String × ℚ) × RecState :=
  if !s.movies_loaded || !s.ratings_loaded then ([], s)
  else
    let movie_avg_ratings :=
      s.ratings.map (fun kv => (kv.1, (calculate_average_rating s kv.1).1))
    (pyTake n (sortRank movie_avg_ratings), s)

/-- The query movie_popularity_in_genre: catalog movies of the canonicalised
genre that have a ratings entry, same ranking as movie_popularity. -/
def movie_popularity_in_genre (s : RecState) (genre : String) (n : Int) :
    List (String × ℚ) × RecState :=
  if !s.movies_loaded || !s.ratings_loaded then ([], s)
  else
    let genre_canon := canon genre
    let genre_movies :=
      s.movies.filterMap (fun m =>
        if canon m.2.2 = genre_canon then
          if (alookup s.ratings m.2.1).isSome then
            some (m.2.1, (calculate_average_rating s m.2.1).1)
          else none
        else none)
    (pyTake n (sortRank genre_movies), s)

/-- The query genre_popularity: group per-movie averages by canonical genre,
score each genre by the mean of those averages. -/
def genre_popularity (s : RecState) (n : Int) : List (String × ℚ) × RecState :=
  if !s.movies_loaded || !s.ratings_loaded then ([], s)
  else
    let genre_ratings :=
      s.movies.foldl (fun d m =>
        if (alookup s.ratings m.2.1).isSome then
          appendGroup (canon m.2.2) ((calculate_average_rating s m.2.1).1) d
        else d) []
    let genre_averages :=
      genre_ratings.filterMap (fun g =>
        if g.2 = [] then none
        else some ((alookup s.genre_display g.1).getD g.1, listMean g.2))
    (pyTake n (sortRank genre_averages), s)

/-- The catalog resolution step of the user_preference_for_genre loop: the
canonical genre of the rated movie, provided the canonical movie name maps
to a movie id that is truthy (nonzero) and present in the movies table. -/
def resolveGenre (s : RecState) (mn : String) : Option String :=
  match alookup s.movie_name_to_id (canon mn) with
  | none => none
  | some mid =>
    if mid = 0 then none
    else
      match alookup s.movies mid with
      | none => none
      | some m => some (canon m.2)

/-- The query user_preference_for_genre: group the user ratings by resolved
canonical genre, average each group, pick the maximum by (average, display)
with the Python max left bias. -/
def user_preference_for_genre (s : RecState) (user_id : Int) :
    (Option String × ℚ) × RecState :=
  if !s.movies_loaded || !s.ratings_loaded then ((none, 0), s)
  else
    let genre_ratings :=
      ((alookup s.user_ratings user_id).getD []).foldl (fun d p =>
        (resolveGenre s p.1).elim d (fun cg => appendGroup cg p.2 d)) []
    if genre_ratings = [] then ((none, 0), s)
    else
      let genre_averages := genre_ratings.map (fun g => (g.1, listMean g.2))
      match genre_averages with
      | [] => ((none, 0), s)
      | h :: t =>
        let m := pymax (fun g => (g.2, dispG s g.1)) h t
        ((some (dispG s m.1), m.2), s)

/-- The query recommend_movies: candidates are catalog movies of the top
genre, not display-rated by the user, with a nonempty ratings entry; ranked
like the popularity queries and truncated to three. -/
def recommend_movies (s : RecState) (user_id : Int) : List String × RecState :=
  if !s.movies_loaded || !s.ratings_loaded then ([], s)
  else
    match (user_preference_for_genre s user_id).1.1 with
    | none => ([], s)
    | some top_genre =>
      if top_genre = "" then ([], s)
      else
        let rated_by_user := ((alookup s.user_ratings user_id).getD []).map (fun p => p.1)
        let target_cg := canon top_genre
        let candidates :=
          s.movies.filterMap (fun m =>
            if canon m.2.2 = target_cg then
              if m.2.1 ∈ rated_by_user then none
              else
                if (alookup s.ratings m.2.1).getD [] = [] then none
                else some (m.2.1, (calculate_average_rating s m.2.1).1)
            else none)
        if candidates = [] then ([], s)
        else ((pyTake 3 (sortRank candidates)).map (fun p => p.1), s)

/-- Concrete state: a small well-behaved catalog and rating set, loaded in
the intended order (movies first). -/
def sMain : RecState :=
  (load_ratings
    (load_movies initState
      ["Action|1|Alpha", "Action|2|Beta", "Drama|3|Gamma", "Drama|4|Delta"]).1
    ["Alpha|4.0|1", "Beta|4.0|1", "Gamma|5.0|2", "Alpha|3.0|2",
     "Delta|2.0|1", "Gamma|5.0|3"]).1

/-- Concrete state: a catalog movie with id 0 that user 7 has rated. -/
def sZero : RecState :=
  (load_ratings (load_movies initState ["Action|0|Zero"]).1 ["Zero|5.0|7"]).1

/-- Concrete state: ratings loaded, movies never loaded. -/
def sRatOnly : RecState :=
  (load_ratings initState ["A|4.0|1"]).1

/-- Concrete state: a rating ingested before the catalog, then the catalog,
then another rating for the same movie; the two ratings end up under two
different display keys of the same canonical name. -/
def sInter : RecState :=
  (load_ratings
    (load_movies (load_ratings initState ["inception|5.0|1"]).1
      ["Sci-Fi|10|Inception"]).1
    ["Inception|3.0|2"]).1

/-- Concrete state: two catalog ids share one display name. -/
def sDup : RecState :=
  (load_ratings (load_movies initState ["Action|1|A", "Action|2|A"]).1
    ["A|4.0|1"]).1

/-- Concrete state: a rating for a movie that is absent from the catalog. -/
def sGhost : RecState :=
  (load_ratings (load_movies initState ["Action|1|Known"]).1
    ["  Ghost |5.0|1", "Known|3.0|2"]).1


/-- Spec-side: all stored rating entries whose key has the given canonical
form, concatenated in table order; these are the ratings stored under one
canonical identity, duplicates included. -/
def canonRatings (s : RecState) (c : String) : List (ℚ × Int) :=
  (s.ratings.filter (fun kv => decide (canon kv.1 = c))).flatMap (fun kv => kv.2)

/-- Spec-side: the mean of all rating values stored under a canonical
identity, zero when there are none. -/
def specCanonMean (s : RecState) (c : String) : ℚ :=
  listMean ((canonRatings s c).map (fun p => p.1))

/-- Spec-side: the per-movie averages of the catalog movies of a canonical
genre that have a ratings entry, in catalog order. -/
def genreMovieAvgs (s : RecState) (cg : String) : List ℚ :=
  (s.movies.filter (fun m =>
    (alookup s.ratings m.2.1).isSome && decide (canon m.2.2 = cg))).map
      (fun m => (calculate_average_rating s m.2.1).1)

/-- Spec-side: the rating values of one user that resolve to a given
canonical genre through the catalog. -/
def userGenreRatings (s : RecState) (uid : Int) (cg : String) : List ℚ :=
  (((alookup s.user_ratings uid).getD []).filter (fun p =>
    decide (resolveGenre s p.1 = some cg))).map (fun p => p.2)

/-- Spec-side: the mean rating of one user inside one resolved canonical
genre. -/
def specGenreMean (s : RecState) (uid : Int) (cg : String) : ℚ :=
  listMean (userGenreRatings s uid cg)

/-- A line that is blank after stripping: silently ignored by both loaders. -/
def isBlankLine (line : String) : Bool :=
  pytrim line == ""

/-- A movie line the loader accepts: nonblank, three pipe fields, integer id. -/
def movieLineValid (line : String) : Bool :=
  (pytrim line != "") &&
    (match splitPipe (pytrim line) with
     | [_, p1, _] => (parseInt? (pytrim p1)).isSome
     | _ => false)

/-- A movie line that is counted as skipped: nonblank with a wrong field
count or an unparsable id. -/
def movieLineMalformed (line : String) : Bool :=
  (pytrim line != "") &&
    (match splitPipe (pytrim line) with
     | [_, p1, _] => (parseInt? (pytrim p1)).isNone
     | _ => true)

/-- A rating line the loader accepts: nonblank, three pipe fields, decimal
rating and integer user id. -/
def ratingLineValid (line : String) : Bool :=
  (pytrim line != "") &&
    (match splitPipe (pytrim line) with
     | [_, p1, p2] => (parseRat? (pytrim p1)).isSome && (parseInt? (pytrim p2)).isSome
     | _ => false)

/-- A rating line that is counted as skipped: nonblank with a wrong field
count or an unparsable rating or user id. -/
def ratingLineMalformed (line : String) : Bool :=
  (pytrim line != "") &&
    (match splitPipe (pytrim line) with
     | [_, p1, p2] => !((parseRat? (pytrim p1)).isSome && (parseInt? (pytrim p2)).isSome)
     | _ => true)




/-! ### Order facts for the Python string comparison -/

theorem str_data_eq {a b : String} (h : a.data = b.data) : a = b := by
  cases a; cases b; exact congrArg String.mk h

theorem strLtB_irrefl : ∀ l : List Char, strLtB l l = false
  | [] => rfl
  | a :: as => by simp [strLtB, strLtB_irrefl as]

theorem strLtB_eq_of_not :
    ∀ {l1 l2 : List Char}, strLtB l1 l2 = false → strLtB l2 l1 = false → l1 = l2
  | [], [], _, _ => rfl
  | [], _ :: _, h1, _ => by simp [strLtB] at h1
  | _ :: _, [], _, h2 => by simp [strLtB] at h2
  | a :: as, b :: bs, h1, h2 => by
    rcases lt_trichotomy a b with hab | hab | hab
    · simp [strLtB, hab] at h1
    · subst hab
      simp only [strLtB, lt_irrefl, if_false] at h1 h2
      exact congrArg (a :: ·) (strLtB_eq_of_not h1 h2)
    · simp [strLtB, hab] at h2

theorem strLtB_trans :
    ∀ {l1 l2 l3 : List Char},
      strLtB l1 l2 = true → strLtB l2 l3 = true → strLtB l1 l3 = true
  | [], _ :: _, [], _, h2 => by simp [strLtB] at h2
  | [], _ :: _, _ :: _, _, _ => by simp [strLtB]
  | [], [], _, h1, _ => by simp [strLtB] at h1
  | _ :: _, [], _, h1, _ => by simp [strLtB] at h1
  | _ :: _, _ :: _, [], _, h2 => by simp [strLtB] at h2
  | a :: as, b :: bs, c :: cs, h1, h2 => by
    rcases lt_trichotomy a b with hab | hab | hab
    · rcases lt_trichotomy b c with hbc | hbc | hbc
      · simp [strLtB, lt_trans hab hbc, not_lt_of_gt (lt_trans hab hbc)]
      · subst hbc; simp [strLtB, hab, not_lt_of_gt hab]
      · rcases lt_trichotomy a c with hac | hac | hac
        · simp [strLtB, hac, not_lt_of_gt hac]
        · subst hac; simp [strLtB, hbc, not_lt_of_gt hbc] at h2
        · exfalso; simp [strLtB, hbc, not_lt_of_gt hbc] at h2
    · subst hab
      rcases lt_trichotomy a c with hac | hac | hac
      · simp [strLtB, hac, not_lt_of_gt hac]
      · subst hac
        simp only [strLtB, lt_irrefl, if_false] at h1 h2 ⊢
        exact strLtB_trans h1 h2
      · exfalso; simp [strLtB, hac, not_lt_of_gt hac] at h2
    · exfalso; simp [strLtB, hab, not_lt_of_gt hab] at h1

theorem strLtB_asymm {l1 l2 : List Char} (h : strLtB l1 l2 = true) :
    strLtB l2 l1 = false := by
  by_contra hne
  have h2 : strLtB l2 l1 = true := by
    cases hh : strLtB l2 l1
    · exact absurd hh hne
    · rfl
  have := strLtB_trans h h2
  rw [strLtB_irrefl l1] at this
  exact Bool.false_ne_true this

theorem pyLt_irrefl (a : String) : ¬ pyLt a a := by
  unfold pyLt; rw [strLtB_irrefl]; exact Bool.false_ne_true

theorem pyLt_trans {a b c : String} (h1 : pyLt a b) (h2 : pyLt b c) : pyLt a c :=
  strLtB_trans h1 h2

theorem py_trichotomy (a b : String) : pyLt a b ∨ a = b ∨ pyLt b a := by
  cases h1 : strLtB a.data b.data
  · cases h2 : strLtB b.data a.data
    · exact Or.inr (Or.inl (str_data_eq (strLtB_eq_of_not h1 h2)))
    · exact Or.inr (Or.inr h2)
  · exact Or.inl h1

theorem pyLe_iff (a b : String) : pyLe a b ↔ pyLt a b ∨ a = b := by
  constructor
  · intro h
    rcases py_trichotomy a b with h1 | h1 | h1
    · exact Or.inl h1
    · exact Or.inr h1
    · exact absurd h1 (by unfold pyLt; rw [h]; exact Bool.false_ne_true)
  · rintro (h | rfl)
    · exact strLtB_asymm h
    · exact strLtB_irrefl a.data

theorem pyLe_refl (a : String) : pyLe a a := strLtB_irrefl a.data

theorem pyLe_total (a b : String) : pyLe a b ∨ pyLe b a := by
  cases h : strLtB b.data a.data
  · exact Or.inl h
  · exact Or.inr (strLtB_asymm h)

theorem pyLe_trans {a b c : String} (h1 : pyLe a b) (h2 : pyLe b c) : pyLe a c := by
  rcases (pyLe_iff a b).1 h1 with h1' | rfl
  · rcases (pyLe_iff b c).1 h2 with h2' | rfl
    · exact (pyLe_iff a c).2 (Or.inl (pyLt_trans h1' h2'))
    · exact h1
  · exact h2

theorem pyLt_of_pyLt_of_pyLe {a b c : String} (h1 : pyLt a b) (h2 : pyLe b c) :
    pyLt a c := by
  rcases (pyLe_iff b c).1 h2 with h2' | rfl
  · exact pyLt_trans h1 h2'
  · exact h1

theorem rankLE_total (a b : String × ℚ) : rankLE a b ∨ rankLE b a := by
  unfold rankLE
  rcases lt_trichotomy a.2 b.2 with h | h | h
  · exact Or.inr (Or.inl h)
  · rcases pyLe_total a.1 b.1 with h' | h'
    · exact Or.inl (Or.inr ⟨h, h'⟩)
    · exact Or.inr (Or.inr ⟨h.symm, h'⟩)
  · exact Or.inl (Or.inl h)

theorem rankLE_trans {a b c : String × ℚ} (h1 : rankLE a b) (h2 : rankLE b c) :
    rankLE a c := by
  unfold rankLE at *
  rcases h1 with h1 | ⟨h1, h1'⟩
  · rcases h2 with h2 | ⟨h2, _⟩
    · exact Or.inl (lt_trans h2 h1)
    · exact Or.inl (h2 ▸ h1)
  · rcases h2 with h2 | ⟨h2, h2'⟩
    · exact Or.inl (h1 ▸ h2)
    · exact Or.inr ⟨h1.trans h2, pyLe_trans h1' h2'⟩

theorem prefLt_irrefl (p : ℚ × String) : ¬ prefLt p p := by
  unfold prefLt
  rintro (h | ⟨_, h⟩)
  · exact lt_irrefl _ h
  · exact pyLt_irrefl _ h

theorem not_prefLt_iff (p q : ℚ × String) :
    ¬ prefLt p q ↔ q.1 < p.1 ∨ (q.1 = p.1 ∧ pyLe q.2 p.2) := by
  unfold prefLt
  constructor
  · intro h
    rcases lt_trichotomy p.1 q.1 with h1 | h1 | h1
    · exact absurd (Or.inl h1) h
    · refine Or.inr ⟨h1.symm, ?_⟩
      rcases py_trichotomy p.2 q.2 with h2 | h2 | h2
      · exact absurd (Or.inr ⟨h1, h2⟩) h
      · exact (pyLe_iff q.2 p.2).2 (Or.inr h2.symm)
      · exact (pyLe_iff q.2 p.2).2 (Or.inl h2)
    · exact Or.inl h1
  · rintro (h | ⟨h, h'⟩) (h1 | ⟨h1, h1'⟩)
    · exact lt_asymm h h1
    · exact absurd h (h1 ▸ lt_irrefl _)
    · exact absurd h1 (h ▸ lt_irrefl _)
    · exact pyLt_irrefl _ (pyLt_of_pyLt_of_pyLe h1' h')

theorem prefLt_trans {p q r : ℚ × String} (h1 : prefLt p q) (h2 : prefLt q r) :
    prefLt p r := by
  unfold prefLt at *
  rcases h1 with h1 | ⟨h1, h1'⟩
  · rcases h2 with h2 | ⟨h2, _⟩
    · exact Or.inl (lt_trans h1 h2)
    · exact Or.inl (h2 ▸ h1)
  · rcases h2 with h2 | ⟨h2, h2'⟩
    · exact Or.inl (h1 ▸ h2)
    · exact Or.inr ⟨h1.trans h2, pyLt_trans h1' h2'⟩

theorem prefLt_of_prefLt_of_not {p x a : ℚ × String}
    (h1 : prefLt p x) (h2 : ¬ prefLt a x) : prefLt p a := by
  rcases (not_prefLt_iff a x).1 h2 with h2' | ⟨h2', h2''⟩
  · unfold prefLt at *
    rcases h1 with h1 | ⟨h1, _⟩
    · exact Or.inl (lt_trans h1 h2')
    · exact Or.inl (h1 ▸ h2')
  · unfold prefLt at *
    rcases h1 with h1 | ⟨h1, h1'⟩
    · exact Or.inl (h2' ▸ h1)
    · exact Or.inr ⟨h1.trans h2', pyLt_of_pyLt_of_pyLe h1' h2''⟩

theorem pymax_cons {α : Type} (key : α → ℚ × String) (a x : α) (t : List α) :
    pymax key a (x :: t) =
      pymax key (if prefLt (key a) (key x) then x else a) t := rfl

theorem pymax_mem {α : Type} (key : α → ℚ × String) :
    ∀ (l : List α) (a : α), pymax key a l ∈ a :: l
  | [], a => List.mem_singleton.2 rfl
  | x :: t, a => by
    rw [pymax_cons]
    by_cases h : prefLt (key a) (key x)
    · rw [if_pos h]
      exact List.mem_cons_of_mem a (pymax_mem key t x)
    · rw [if_neg h]
      rcases List.mem_cons.1 (pymax_mem key t a) with h' | h'
      · rw [h']; exact List.mem_cons_self a _
      · exact List.mem_cons_of_mem a (List.mem_cons_of_mem x h')

theorem pymax_not_lt {α : Type} (key : α → ℚ × String) :
    ∀ (l : List α) (a : α) (y : α), y ∈ a :: l →
      ¬ prefLt (key (pymax key a l)) (key y)
  | [], a, y, hy => by
    rcases List.mem_singleton.1 hy with rfl
    exact prefLt_irrefl (key y)
  | x :: t, a, y, hy => by
    rw [pymax_cons]
    rcases List.mem_cons.1 hy with heq | hy2
    · rw [heq]
      by_cases h : prefLt (key a) (key x)
      · rw [if_pos h]
        intro hcon
        exact (pymax_not_lt key t x x (List.mem_cons_self x t))
          (prefLt_trans hcon h)
      · rw [if_neg h]
        exact pymax_not_lt key t a a (List.mem_cons_self a t)
    · rcases List.mem_cons.1 hy2 with heq | hy3
      · rw [heq]
        by_cases h : prefLt (key a) (key x)
        · rw [if_pos h]
          exact pymax_not_lt key t x x (List.mem_cons_self x t)
        · rw [if_neg h]
          intro hcon
          exact (pymax_not_lt key t a a (List.mem_cons_self a t))
            (prefLt_of_prefLt_of_not hcon h)
      · by_cases h : prefLt (key a) (key x)
        · rw [if_pos h]
          exact pymax_not_lt key t x y (List.mem_cons_of_mem x hy3)
        · rw [if_neg h]
          exact pymax_not_lt key t a y (List.mem_cons_of_mem a hy3)

/-! ### Association list and grouping lemmas -/

theorem alookup_mem {K V : Type} [DecidableEq K] :
    ∀ {d : List (K × V)} {k : K} {v : V}, alookup d k = some v → (k, v) ∈ d
  | [], k, v, h => by simp [alookup] at h
  | (a, b) :: t, k, v, h => by
    by_cases hak : a = k
    · subst hak
      have hb : b = v := by simpa [alookup] using h
      subst hb
      exact List.mem_cons_self _ _
    · simp only [alookup, if_neg hak] at h
      exact List.mem_cons_of_mem _ (alookup_mem h)

theorem alookup_eq_none_iff {K V : Type} [DecidableEq K] :
    ∀ {d : List (K × V)} {k : K}, alookup d k = none ↔ k ∉ d.map Prod.fst
  | [], k => by simp [alookup]
  | (a, b) :: t, k => by
    by_cases hak : a = k
    · subst hak
      simp [alookup]
    · simp only [alookup, if_neg hak, List.map_cons, List.mem_cons]
      rw [alookup_eq_none_iff]
      constructor
      · intro h hc
        rcases hc with hc | hc
        · exact hak hc.symm
        · exact h hc
      · intro h hc
        exact h (Or.inr hc)

theorem alookup_isSome_of_mem {K V : Type} [DecidableEq K]
    {d : List (K × V)} {k : K} {v : V} (h : (k, v) ∈ d) :
    (alookup d k).isSome := by
  cases hl : alookup d k
  · rw [alookup_eq_none_iff] at hl
    exact absurd (List.mem_map_of_mem Prod.fst h) hl
  · rfl

theorem alookup_of_mem_nodup {K V : Type} [DecidableEq K] :
    ∀ {d : List (K × V)}, (d.map Prod.fst).Nodup →
      ∀ {k : K} {v : V}, (k, v) ∈ d → alookup d k = some v
  | [], _, k, v, h => by simp at h
  | (a, b) :: t, hnd, k, v, h => by
    simp only [List.map_cons, List.nodup_cons] at hnd
    rcases List.mem_cons.1 h with heq | hmem
    · rw [Prod.mk.injEq] at heq
      rw [← heq.1, ← heq.2]
      simp [alookup]
    · have hak : a ≠ k := by
        intro hc
        subst hc
        exact hnd.1 (List.mem_map_of_mem Prod.fst hmem)
      simp only [alookup, if_neg hak]
      exact alookup_of_mem_nodup hnd.2 hmem

theorem alookup_appendGroup {K V : Type} [DecidableEq K] (k k' : K) (v : V) :
    ∀ d : List (K × List V),
      alookup (appendGroup k v d) k' =
        if k = k' then some ((alookup d k').getD [] ++ [v]) else alookup d k'
  | [] => by
    by_cases h : k = k' <;> simp [appendGroup, alookup, h]
  | (a, vs) :: t => by
    by_cases hak : a = k
    · subst hak
      simp only [appendGroup, if_pos rfl]
      by_cases hk' : a = k'
      · subst hk'
        simp [alookup]
      · simp [alookup, hk']
    · simp only [appendGroup, if_neg hak]
      by_cases hk' : a = k'
      · subst hk'
        have hkk' : k ≠ a := fun hc => hak hc.symm
        simp [alookup, hkk', hak]
      · simp only [alookup, if_neg hk']
        exact alookup_appendGroup k k' v t

theorem keys_appendGroup {K V : Type} [DecidableEq K] (k : K) (v : V) :
    ∀ d : List (K × List V),
      (appendGroup k v d).map Prod.fst =
        if (alookup d k).isSome then d.map Prod.fst else d.map Prod.fst ++ [k]
  | [] => by simp [appendGroup, alookup]
  | (a, vs) :: t => by
    by_cases hak : a = k
    · subst hak
      simp [appendGroup, alookup]
    · simp only [appendGroup, if_neg hak, alookup, List.map_cons]
      rw [keys_appendGroup k v t]
      by_cases h : (alookup t k).isSome <;> simp [h, hak]

theorem nodup_keys_appendGroup {K V : Type} [DecidableEq K] {k : K} {v : V}
    {d : List (K × List V)} (hnd : (d.map Prod.fst).Nodup) :
    ((appendGroup k v d).map Prod.fst).Nodup := by
  rw [keys_appendGroup]
  cases h : alookup d k
  · have hk : k ∉ d.map Prod.fst := alookup_eq_none_iff.1 h
    simp [List.nodup_append, hnd, hk]
  · simpa using hnd

theorem alookupD_foldl_group {α K V : Type} [DecidableEq K]
    (step : List (K × List V) → α → List (K × List V)) (h : α → Option (K × V))
    (hstep : ∀ d x, step d x =
      match h x with | some p => appendGroup p.1 p.2 d | none => d) :
    ∀ (l : List α) (d0 : List (K × List V)) (k : K),
      (alookup (l.foldl step d0) k).getD [] =
        (alookup d0 k).getD [] ++
          ((l.filterMap h).filter (fun p => decide (p.1 = k))).map Prod.snd
  | [], d0, k => by simp [List.filterMap]
  | x :: l, d0, k => by
    simp only [List.foldl_cons]
    rw [hstep]
    cases hx : h x with
    | none =>
      simp only []
      rw [alookupD_foldl_group step h hstep l d0 k]
      simp [List.filterMap_cons, hx]
    | some p =>
      simp only []
      rw [alookupD_foldl_group step h hstep l (appendGroup p.1 p.2 d0) k]
      rw [alookup_appendGroup]
      by_cases hpk : p.1 = k
      · rw [if_pos hpk]
        simp [List.filterMap_cons, hx, List.filter_cons, hpk]
      · rw [if_neg hpk]
        simp only [List.filterMap_cons, hx, List.filter_cons]
        rw [decide_eq_false hpk]
        simp only [Bool.false_eq_true, if_false]

theorem alookup_of_getD_ne_nil {K V : Type} [DecidableEq K]
    {d : List (K × List V)} {k : K} (h : (alookup d k).getD [] ≠ []) :
    alookup d k = some ((alookup d k).getD []) := by
  cases hl : alookup d k
  · rw [hl] at h; simp at h
  · simp

theorem nodup_keys_foldl_group {α K V : Type} [DecidableEq K]
    (step : List (K × List V) → α → List (K × List V)) (h : α → Option (K × V))
    (hstep : ∀ d x, step d x =
      match h x with | some p => appendGroup p.1 p.2 d | none => d) :
    ∀ (l : List α) (d0 : List (K × List V)),
      (d0.map Prod.fst).Nodup → ((l.foldl step d0).map Prod.fst).Nodup
  | [], d0, hnd => hnd
  | x :: l, d0, hnd => by
    simp only [List.foldl_cons]
    rw [hstep]
    cases hx : h x with
    | none =>
      exact nodup_keys_foldl_group step h hstep l d0 hnd
    | some p =>
      exact nodup_keys_foldl_group step h hstep l _ (nodup_keys_appendGroup hnd)

theorem filterMap_group_extract_opt {α K V : Type} [DecidableEq K]
    (f : α → Option K) (g : α → V) (k : K) :
    ∀ l : List α,
      ((l.filterMap (fun x => (f x).map (fun y => (y, g x)))).filter
        (fun q => decide (q.1 = k))).map Prod.snd
        = (l.filter (fun x => decide (f x = some k))).map g
  | [] => rfl
  | x :: l => by
    have IH := filterMap_group_extract_opt f g k l
    cases hf : f x with
    | none => simp [List.filterMap_cons, List.filter_cons, hf, IH]
    | some y =>
      by_cases hyk : y = k
      · simp [List.filterMap_cons, List.filter_cons, hf, hyk, IH]
      · simp [List.filterMap_cons, List.filter_cons, hf, hyk, IH]

theorem filterMap_group_extract_if {α K V : Type} [DecidableEq K]
    (c : α → Bool) (f : α → K) (g : α → V) (k : K) :
    ∀ l : List α,
      ((l.filterMap (fun x => if c x then some (f x, g x) else none)).filter
        (fun q => decide (q.1 = k))).map Prod.snd
        = (l.filter (fun x => c x && decide (f x = k))).map g
  | [] => rfl
  | x :: l => by
    have IH := filterMap_group_extract_if c f g k l
    by_cases hc : c x
    · by_cases hfk : f x = k
      · simp [List.filterMap_cons, List.filter_cons, hc, hfk, IH]
      · simp [List.filterMap_cons, List.filter_cons, hc, hfk, IH]
    · have hc' : c x = false := by
        cases h : c x
        · rfl
        · exact absurd h hc
      simp [List.filterMap_cons, List.filter_cons, hc', IH]

/-! ### Sorting and truncation lemmas -/

theorem sortRank_perm (l : List (String × ℚ)) : (sortRank l).Perm l :=
  List.perm_insertionSort rankLE l

theorem sortRank_sorted (l : List (String × ℚ)) : List.Pairwise rankLE (sortRank l) := by
  haveI : IsTotal (String × ℚ) rankLE := ⟨rankLE_total⟩
  haveI : IsTrans (String × ℚ) rankLE := ⟨fun _ _ _ => rankLE_trans⟩
  exact List.sorted_insertionSort rankLE l

theorem pyTake_eq_take {α : Type} (n : Int) (l : List α) :
    ∃ m : Nat, pyTake n l = l.take m := by
  unfold pyTake
  by_cases h : 0 ≤ n
  · exact ⟨n.toNat, if_pos h⟩
  · exact ⟨l.length - n.natAbs, if_neg h⟩

theorem pyTake_sublist {α : Type} (n : Int) (l : List α) :
    (pyTake n l).Sublist l := by
  obtain ⟨m, hm⟩ := pyTake_eq_take n l
  rw [hm]
  exact List.take_sublist m l

theorem pyTake_all {α : Type} {n : Int} {l : List α} (h0 : 0 ≤ n)
    (h : l.length ≤ n.toNat) : pyTake n l = l := by
  unfold pyTake
  rw [if_pos h0]
  exact List.take_of_length_le h

theorem length_pyTake_le {α : Type} (n : Int) (l : List α) (h0 : 0 ≤ n) :
    (pyTake n l).length ≤ n.toNat := by
  unfold pyTake
  rw [if_pos h0]
  exact List.length_take_le n.toNat l

theorem pairwise_rank_strict {l : List (String × ℚ)}
    (h : List.Pairwise rankLE l) (hn : (l.map Prod.fst).Nodup) :
    List.Pairwise (fun a b : String × ℚ =>
      b.2 < a.2 ∨ (a.2 = b.2 ∧ pyLt a.1 b.1)) l := by
  have hn' : List.Pairwise (fun a b : String × ℚ => a.1 ≠ b.1) l :=
    List.pairwise_map.1 hn
  refine (h.and hn').imp ?_
  rintro a b ⟨hr, hne⟩
  rcases hr with hlt | ⟨heq, hle⟩
  · exact Or.inl hlt
  · rcases (pyLe_iff a.1 b.1).1 hle with hlt' | heq'
    · exact Or.inr ⟨heq, hlt'⟩
    · exact absurd heq' hne

/-! ### Absence of mutation in the query operations -/

theorem calculate_average_rating_st (s : RecState) (q : String) :
    (calculate_average_rating s q).2 = s := by
  unfold calculate_average_rating
  split
  · rfl
  · dsimp only
    split
    · rfl
    · split <;> rfl

theorem movie_popularity_st (s : RecState) (n : Int) :
    (movie_popularity s n).2 = s := by
  unfold movie_popularity
  split <;> rfl

theorem movie_popularity_in_genre_st (s : RecState) (g : String) (n : Int) :
    (movie_popularity_in_genre s g n).2 = s := by
  unfold movie_popularity_in_genre
  split <;> rfl

theorem genre_popularity_st (s : RecState) (n : Int) :
    (genre_popularity s n).2 = s := by
  unfold genre_popularity
  split <;> rfl

theorem user_preference_for_genre_st (s : RecState) (u : Int) :
    (user_preference_for_genre s u).2 = s := by
  unfold user_preference_for_genre
  split
  · rfl
  · dsimp only
    split
    · rfl
    · split <;> rfl

theorem recommend_movies_st (s : RecState) (u : Int) :
    (recommend_movies s u).2 = s := by
  unfold recommend_movies
  split
  · rfl
  · split
    · rfl
    · split
      · rfl
      · dsimp only
        split <;> rfl

theorem length_appendGroup {K V : Type} [DecidableEq K] (k : K) (v : V) :
    ∀ d : List (K × List V), (appendGroup k v d).length ≤ d.length + 1
  | [] => by simp [appendGroup]
  | (a, vs) :: t => by
    by_cases hak : a = k
    · simp [appendGroup, hak]
    · simp only [appendGroup, if_neg hak, List.length_cons]
      have := length_appendGroup k v t
      omega

theorem length_foldl_group {α K V : Type} [DecidableEq K]
    (step : List (K × List V) → α → List (K × List V)) (h : α → Option (K × V))
    (hstep : ∀ d x, step d x =
      match h x with | some p => appendGroup p.1 p.2 d | none => d) :
    ∀ (l : List α) (d0 : List (K × List V)),
      (l.foldl step d0).length ≤ d0.length + l.length
  | [], d0 => by simp
  | x :: l, d0 => by
    simp only [List.foldl_cons, List.length_cons]
    rw [hstep]
    cases hx : h x with
    | none =>
      dsimp only
      have := length_foldl_group step h hstep l d0
      omega
    | some p =>
      dsimp only
      have h1 := length_foldl_group step h hstep l (appendGroup p.1 p.2 d0)
      have h2 := length_appendGroup p.1 p.2 d0
      omega

theorem values_nonempty_appendGroup {K V : Type} [DecidableEq K] {k : K} {v : V} :
    ∀ {d : List (K × List V)}, (∀ p ∈ d, p.2 ≠ []) →
      ∀ p ∈ appendGroup k v d, p.2 ≠ []
  | [], _, p, hp => by
    simp only [appendGroup, List.mem_singleton] at hp
    subst hp
    simp
  | (a, vs) :: t, hd, p, hp => by
    by_cases hak : a = k
    · rw [appendGroup, if_pos hak] at hp
      rcases List.mem_cons.1 hp with heq | hmem
      · subst heq; simp
      · exact hd p (List.mem_cons_of_mem _ hmem)
    · rw [appendGroup, if_neg hak] at hp
      rcases List.mem_cons.1 hp with heq | hmem
      · subst heq
        exact hd (a, vs) (List.mem_cons_self _ _)
      · exact values_nonempty_appendGroup
          (fun q hq => hd q (List.mem_cons_of_mem _ hq)) p hmem

theorem values_nonempty_foldl_group {α K V : Type} [DecidableEq K]
    (step : List (K × List V) → α → List (K × List V)) (h : α → Option (K × V))
    (hstep : ∀ d x, step d x =
      match h x with | some p => appendGroup p.1 p.2 d | none => d) :
    ∀ (l : List α) (d0 : List (K × List V)), (∀ p ∈ d0, p.2 ≠ []) →
      ∀ p ∈ l.foldl step d0, p.2 ≠ []
  | [], d0, hd, p, hp => hd p hp
  | x :: l, d0, hd, p, hp => by
    simp only [List.foldl_cons] at hp
    rw [hstep] at hp
    cases hx : h x with
    | none =>
      rw [hx] at hp
      exact values_nonempty_foldl_group step h hstep l d0 hd p hp
    | some q =>
      rw [hx] at hp
      exact values_nonempty_foldl_group step h hstep l _
        (values_nonempty_appendGroup hd) p hp

theorem filter_eq_alookup_singleton {K V : Type} [DecidableEq K]
    (pk : K → Bool) (k0 : K) :
    ∀ d : List (K × V), (d.map Prod.fst).Nodup → pk k0 = true →
      (∀ kv ∈ d, pk kv.1 = true → kv.1 = k0) →
      d.filter (fun kv => pk kv.1) =
        (match alookup d k0 with
         | some v => [(k0, v)]
         | none => ([] : List (K × V)))
  | [], _, _, _ => by simp [alookup]
  | (a, b) :: t, hnd, hk0, hco => by
    simp only [List.map_cons, List.nodup_cons] at hnd
    by_cases hpa : pk a = true
    · have hak0 : a = k0 := hco (a, b) (List.mem_cons_self _ _) hpa
      subst hak0
      simp only [List.filter_cons, hpa, if_true, alookup, if_pos rfl]
      have hrest : t.filter (fun kv => pk kv.1) = [] := by
        rw [List.filter_eq_nil_iff]
        intro kv hkv hpkv
        have : kv.1 = a := hco kv (List.mem_cons_of_mem _ hkv) (by simpa using hpkv)
        exact hnd.1 (this ▸ List.mem_map_of_mem Prod.fst hkv)
      rw [hrest]
    · have hak0 : a ≠ k0 := by
        intro hc
        subst hc
        exact hpa hk0
      simp only [List.filter_cons, alookup, if_neg hak0]
      rw [if_neg (by simpa using hpa)]
      exact filter_eq_alookup_singleton pk k0 t hnd.2 hk0
        (fun kv hkv => hco kv (List.mem_cons_of_mem _ hkv))

/-! ### C9 -/

/-- C9: no query operation mutates the Movie or Rating tables: for every
state and all arguments, the object state after each of the six query calls
equals the state before it, so all six tables and both flags are unchanged. -/
theorem C9_queries_pure (s : RecState) (q g : String) (n m : Int) (u v : Int) :
    (calculate_average_rating s q).2 = s ∧
    (movie_popularity s n).2 = s ∧
    (movie_popularity_in_genre s g m).2 = s ∧
    (genre_popularity s n).2 = s ∧
    (user_preference_for_genre s u).2 = s ∧
    (recommend_movies s v).2 = s :=
  ⟨calculate_average_rating_st s q, movie_popularity_st s n,
   movie_popularity_in_genre_st s g m, genre_popularity_st s n,
   user_preference_for_genre_st s u, recommend_movies_st s v⟩

/-! ### C3 -/

/-- C3 counterexample: after a successful load_ratings alone, a reachable
state in which the loads have not both succeeded, average on a rated movie
returns its true mean 4, not the neutral 0.0, so average is not gated by
the loaded flags as the claim states. -/
theorem C3_counterexample :
    sRatOnly.movies_loaded = false ∧
    (calculate_average_rating sRatOnly "A").1 ≠ 0 := by
  constructor
  · rfl
  · decide

/-- C3 (amended): the five gated queries, topMovies, topMoviesInGenre,
topGenres, userTopGenre and recommend, return their defined empty or
neutral results in every state in which the two loads have not both
succeeded; average is ungated and simply computes over the stored ratings. -/
theorem C3_gated_queries_neutral (s : RecState) (g : String) (n : Int) (u : Int)
    (h : ¬(s.movies_loaded = true ∧ s.ratings_loaded = true)) :
    (movie_popularity s n).1 = [] ∧
    (movie_popularity_in_genre s g n).1 = [] ∧
    (genre_popularity s n).1 = [] ∧
    (user_preference_for_genre s u).1 = (none, 0) ∧
    (recommend_movies s u).1 = [] := by
  have hb : (!s.movies_loaded || !s.ratings_loaded) = true := by
    cases hm : s.movies_loaded <;> cases hr : s.ratings_loaded <;>
      simp_all
  refine ⟨?_, ?_, ?_, ?_, ?_⟩
  · unfold movie_popularity
    rw [if_pos hb]
  · unfold movie_popularity_in_genre
    rw [if_pos hb]
  · unfold genre_popularity
    rw [if_pos hb]
  · unfold user_preference_for_genre
    rw [if_pos hb]
  · unfold recommend_movies
    rw [if_pos hb]

/-- C3 witness: the amended statement at the freshly initialised state. -/
theorem C3_witness :
    (movie_popularity initState 5).1 = [] ∧
    (movie_popularity_in_genre initState "Action" 5).1 = [] ∧
    (genre_popularity initState 5).1 = [] ∧
    (user_preference_for_genre initState 9).1 = (none, 0) ∧
    (recommend_movies initState 9).1 = [] :=
  C3_gated_queries_neutral initState "Action" 5 9 (by decide)

/-! ### C8 -/

theorem loadMovieLine_counts_step (s : RecState) (a b : Nat) (line : String) :
    ((loadMovieLine (s, a, b) line).2.1 =
      if movieLineValid line then a + 1 else a) ∧
    ((loadMovieLine (s, a, b) line).2.2 =
      if movieLineMalformed line then b + 1 else b) := by
  unfold loadMovieLine movieLineValid movieLineMalformed
  dsimp only
  by_cases hb : pytrim line = ""
  · simp [hb]
  · have hb' : (pytrim line != "") = true := by simp [hb]
    rw [if_neg hb]
    cases hsp : splitPipe (pytrim line) with
    | nil => simp [hb']
    | cons p0 t0 =>
      cases t0 with
      | nil => simp [hb']
      | cons p1 t1 =>
        cases t1 with
        | nil => simp [hb']
        | cons p2 t2 =>
          cases t2 with
          | nil =>
            cases hpi : parseInt? (pytrim p1) with
            | none => simp [hb', hpi]
            | some mid => simp [hb', hpi]
          | cons p3 t3 => simp [hb']

theorem loadRatingLine_counts_step (s : RecState) (seen : List (String × Int))
    (a b d : Nat) (line : String) :
    ((loadRatingLine (s, seen, a, b, d) line).2.2.1 =
      if ratingLineValid line then a + 1 else a) ∧
    ((loadRatingLine (s, seen, a, b, d) line).2.2.2.1 =
      if ratingLineMalformed line then b + 1 else b) := by
  unfold loadRatingLine ratingLineValid ratingLineMalformed
  dsimp only
  by_cases hb : pytrim line = ""
  · simp [hb]
  · have hb' : (pytrim line != "") = true := by simp [hb]
    rw [if_neg hb]
    cases hsp : splitPipe (pytrim line) with
    | nil => simp [hb']
    | cons p0 t0 =>
      cases t0 with
      | nil => simp [hb']
      | cons p1 t1 =>
        cases t1 with
        | nil => simp [hb']
        | cons p2 t2 =>
          cases t2 with
          | nil =>
            cases hpr : parseRat? (pytrim p1) with
            | none => simp [hb', hpr]
            | some r =>
              cases hpi : parseInt? (pytrim p2) with
              | none => simp [hb', hpr, hpi]
              | some uid => simp [hb', hpr, hpi]
          | cons p3 t3 => simp [hb']

theorem load_movies_fold_counts :
    ∀ (lines : List String) (s : RecState) (a b : Nat),
      (lines.foldl loadMovieLine (s, a, b)).2.1 =
        a + lines.countP movieLineValid ∧
      (lines.foldl loadMovieLine (s, a, b)).2.2 =
        b + lines.countP movieLineMalformed
  | [], s, a, b => by simp
  | line :: rest, s, a, b => by
    simp only [List.foldl_cons]
    have hstep := loadMovieLine_counts_step s a b line
    cases hres : loadMovieLine (s, a, b) line with
    | mk s1 cnt =>
      cases cnt with
      | mk a1 b1 =>
        rw [hres] at hstep
        have IH := load_movies_fold_counts rest s1 a1 b1
        constructor
        · rw [IH.1, List.countP_cons]
          have h1 := hstep.1
          by_cases h : movieLineValid line = true <;> simp [h] at h1 ⊢ <;> omega
        · rw [IH.2, List.countP_cons]
          have h2 := hstep.2
          by_cases h : movieLineMalformed line = true <;> simp [h] at h2 ⊢ <;> omega

theorem load_ratings_fold_counts :
    ∀ (lines : List String) (s : RecState) (seen : List (String × Int))
      (a b d : Nat),
      (lines.foldl loadRatingLine (s, seen, a, b, d)).2.2.1 =
        a + lines.countP ratingLineValid ∧
      (lines.foldl loadRatingLine (s, seen, a, b, d)).2.2.2.1 =
        b + lines.countP ratingLineMalformed
  | [], s, seen, a, b, d => by simp
  | line :: rest, s, seen, a, b, d => by
    simp only [List.foldl_cons]
    have hstep := loadRatingLine_counts_step s seen a b d line
    cases hres : loadRatingLine (s, seen, a, b, d) line with
    | mk s1 rest1 =>
      obtain ⟨seen1, a1, b1, d1⟩ := rest1
      rw [hres] at hstep
      have IH := load_ratings_fold_counts rest s1 seen1 a1 b1 d1
      constructor
      · rw [IH.1, List.countP_cons]
        have h1 := hstep.1
        by_cases h : ratingLineValid line = true <;> simp [h] at h1 ⊢ <;> omega
      · rw [IH.2, List.countP_cons]
        have h2 := hstep.2
        by_cases h : ratingLineMalformed line = true <;> simp [h] at h2 ⊢ <;> omega

/-- C8 counterexample: a blank line is skipped silently, it is not counted
in the skipped-line count, so the reported count after loading one blank
line and one valid line is 0, not the 1 the claim requires. -/
theorem C8_counterexample :
    (["", "Action|1|A"].countP isBlankLine = 1) ∧
    ((load_movies initState ["", "Action|1|A"]).2.2 = 0) ∧
    ((load_movies initState ["", "Action|1|A"]).2.1 = 1) := by
  refine ⟨by decide, by decide, by decide⟩

/-- C8 (amended): during load_movies and load_ratings, every nonblank line
with a field count different from 3 or an unparsable numeric field is
skipped and counted in the reported skipped count, every valid line is
counted as loaded, blank lines are skipped silently without entering
either count, and the load always runs to completion, setting its flag. -/
theorem C8_malformed_lines_counted (s s' : RecState)
    (lines lines' : List String) :
    (load_movies s lines).2.1 = lines.countP movieLineValid ∧
    (load_movies s lines).2.2 = lines.countP movieLineMalformed ∧
    (load_movies s lines).1.movies_loaded = true ∧
    (load_ratings s' lines').2.1 = lines'.countP ratingLineValid ∧
    (load_ratings s' lines').2.2.1 = lines'.countP ratingLineMalformed ∧
    (load_ratings s' lines').1.ratings_loaded = true := by
  have hm := load_movies_fold_counts lines s 0 0
  have hr := load_ratings_fold_counts lines' s' [] 0 0 0
  unfold load_movies load_ratings
  refine ⟨?_, ?_, rfl, ?_, ?_, rfl⟩
  · simpa using hm.1
  · simpa using hm.2
  · simpa using hr.1
  · simpa using hr.2

/-! ### C7 -/

/-- C7: evaluation at the failing input: the catalog holds movie Zero with
id 0, user 7 has a stored rating for it that resolves through the
canonical-name map to id 0, yet user_preference_for_genre returns the null
sentinel because the truthiness test on the looked-up id treats id 0 as
missing; the claim says a rating for a catalog movie is never skipped. -/
theorem C7_zero_id_rating_skipped :
    alookup sZero.movies 0 = some ("Zero", "Action") ∧
    (alookup sZero.user_ratings 7).getD [] = [("Zero", 5)] ∧
    alookup sZero.movie_name_to_id (canon "Zero") = some 0 ∧
    (user_preference_for_genre sZero 7).1 = (none, 0) := by
  refine ⟨by decide, by decide, by decide, by decide⟩

/-! ### C10 -/

/-- C10: movie_popularity ranks every display name that has stored ratings,
catalog member or not: whenever both loads succeeded and n is at least the
number of rated names, every stored key appears in the output; moreover, in
the concrete state sGhost, the valid rating line for the uncatalogued movie
Ghost was stored under its trimmed raw name and Ghost appears in the
topMovies output. -/
theorem C10_unknown_movies_ranked :
    (∀ (s : RecState) (n : Int) (name : String),
        s.movies_loaded = true → s.ratings_loaded = true →
        (s.ratings.length : Int) ≤ n →
        name ∈ s.ratings.map Prod.fst →
        name ∈ (movie_popularity s n).1.map Prod.fst) ∧
    alookup sGhost.ratings "Ghost" = some [(5, 1)] ∧
    alookup sGhost.movie_name_to_id (canon "Ghost") = none ∧
    "Ghost" ∈ (movie_popularity sGhost 10).1.map Prod.fst := by
  refine ⟨?_, by decide, by decide, by decide⟩
  intro s n name hm hr hn hmem
  unfold movie_popularity
  have hb : (!s.movies_loaded || !s.ratings_loaded) = false := by
    rw [hm, hr]; rfl
  rw [if_neg (by simp [hb])]
  dsimp only
  set pairs := s.ratings.map (fun kv => (kv.1, (calculate_average_rating s kv.1).1))
    with hpairs
  have hlen1 : (sortRank pairs).length = pairs.length :=
    (sortRank_perm pairs).length_eq
  have hlen2 : pairs.length = s.ratings.length := by
    rw [hpairs, List.length_map]
  have h0n : 0 ≤ n :=
    le_trans (Int.natCast_nonneg s.ratings.length) hn
  have hle : (sortRank pairs).length ≤ n.toNat := by omega
  rw [pyTake_all h0n hle]
  have hmem2 : name ∈ pairs.map Prod.fst := by
    rw [hpairs, List.map_map]
    simpa using hmem
  exact (((sortRank_perm pairs).map Prod.fst).mem_iff).2 hmem2

/-- C10 witness: the general part, instantiated at sGhost with every
hypothesis discharged on the concrete state. -/
theorem C10_witness :
    "Ghost" ∈ (movie_popularity sGhost 10).1.map Prod.fst :=
  C10_unknown_movies_ranked.1 sGhost 10 "Ghost" (by decide) (by decide)
    (by decide) (by decide)

/-! ### C6 -/

theorem pairwise_rank_pyTake (n : Int) (l : List (String × ℚ)) :
    List.Pairwise rankLE (pyTake n (sortRank l)) :=
  List.Pairwise.sublist (pyTake_sublist n (sortRank l)) (sortRank_sorted l)

/-- C6 counterexample: two catalog ids share the display name A, so
topMoviesInGenre lists the name twice with equal scores, and the output is
not strictly ascending on names inside the equal-score tier as the claim
requires. -/
theorem C6_counterexample :
    (movie_popularity_in_genre sDup "Action" 5).1 = [("A", 4), ("A", 4)] ∧
    ¬ List.Pairwise (fun a b : String × ℚ =>
        b.2 < a.2 ∨ (a.2 = b.2 ∧ pyLt a.1 b.1))
      (movie_popularity_in_genre sDup "Action" 5).1 := by
  refine ⟨by decide, by decide⟩

/-- C6 (amended): for every state, genre and n, the sequences returned by
the three popularity queries are sorted non-increasing by score with ties
non-decreasing by display name, and whenever the listed names are pairwise
distinct, which holds for every catalog without duplicated display names,
entries with equal scores appear in strictly ascending name order. -/
theorem C6_rankings_sorted (s : RecState) (g : String) (n : Int) :
    (List.Pairwise rankLE (movie_popularity s n).1 ∧
      (((movie_popularity s n).1.map Prod.fst).Nodup →
        List.Pairwise (fun a b : String × ℚ =>
          b.2 < a.2 ∨ (a.2 = b.2 ∧ pyLt a.1 b.1)) (movie_popularity s n).1)) ∧
    (List.Pairwise rankLE (movie_popularity_in_genre s g n).1 ∧
      (((movie_popularity_in_genre s g n).1.map Prod.fst).Nodup →
        List.Pairwise (fun a b : String × ℚ =>
          b.2 < a.2 ∨ (a.2 = b.2 ∧ pyLt a.1 b.1))
          (movie_popularity_in_genre s g n).1)) ∧
    (List.Pairwise rankLE (genre_popularity s n).1 ∧
      (((genre_popularity s n).1.map Prod.fst).Nodup →
        List.Pairwise (fun a b : String × ℚ =>
          b.2 < a.2 ∨ (a.2 = b.2 ∧ pyLt a.1 b.1)) (genre_popularity s n).1)) := by
  have h1 : List.Pairwise rankLE (movie_popularity s n).1 := by
    unfold movie_popularity
    split
    · simp
    · exact pairwise_rank_pyTake n _
  have h2 : List.Pairwise rankLE (movie_popularity_in_genre s g n).1 := by
    unfold movie_popularity_in_genre
    split
    · simp
    · exact pairwise_rank_pyTake n _
  have h3 : List.Pairwise rankLE (genre_popularity s n).1 := by
    unfold genre_popularity
    split
    · simp
    · exact pairwise_rank_pyTake n _
  exact ⟨⟨h1, fun hnd => pairwise_rank_strict h1 hnd⟩,
    ⟨h2, fun hnd => pairwise_rank_strict h2 hnd⟩,
    ⟨h3, fun hnd => pairwise_rank_strict h3 hnd⟩⟩

/-- C6 witness: strict descending-score, ascending-name order on the three
concrete outputs of the well-behaved state sMain. -/
theorem C6_witness :
    List.Pairwise (fun a b : String × ℚ =>
      b.2 < a.2 ∨ (a.2 = b.2 ∧ pyLt a.1 b.1)) (movie_popularity sMain 10).1 ∧
    List.Pairwise (fun a b : String × ℚ =>
      b.2 < a.2 ∨ (a.2 = b.2 ∧ pyLt a.1 b.1))
      (movie_popularity_in_genre sMain "Action" 10).1 ∧
    List.Pairwise (fun a b : String × ℚ =>
      b.2 < a.2 ∨ (a.2 = b.2 ∧ pyLt a.1 b.1)) (genre_popularity sMain 10).1 :=
  ⟨(C6_rankings_sorted sMain "Action" 10).1.2 (by decide),
   (C6_rankings_sorted sMain "Action" 10).2.1.2 (by decide),
   (C6_rankings_sorted sMain "Action" 10).2.2.2 (by decide)⟩

/-! ### C5 -/

theorem genre_grouped_lookup (s : RecState) (cg : String) :
    (alookup (s.movies.foldl (fun d m =>
        if (alookup s.ratings m.2.1).isSome then
          appendGroup (canon m.2.2) ((calculate_average_rating s m.2.1).1) d
        else d) []) cg).getD [] = genreMovieAvgs s cg := by
  rw [alookupD_foldl_group _
    (fun m : Int × String × String =>
      if (alookup s.ratings m.2.1).isSome then
        some (canon m.2.2, (calculate_average_rating s m.2.1).1)
      else none)
    (by
      intro d m
      by_cases hc : (alookup s.ratings m.2.1).isSome <;> simp [hc])
    s.movies [] cg]
  rw [filterMap_group_extract_if (fun m => (alookup s.ratings m.2.1).isSome)
    (fun m => canon m.2.2) (fun m => (calculate_average_rating s m.2.1).1)
    cg s.movies]
  rfl

theorem genre_grouped_nodup (s : RecState) :
    ((s.movies.foldl (fun d m =>
        if (alookup s.ratings m.2.1).isSome then
          appendGroup (canon m.2.2) ((calculate_average_rating s m.2.1).1) d
        else d) []).map Prod.fst).Nodup :=
  nodup_keys_foldl_group _
    (fun m : Int × String × String =>
      if (alookup s.ratings m.2.1).isSome then
        some (canon m.2.2, (calculate_average_rating s m.2.1).1)
      else none)
    (by
      intro d m
      by_cases hc : (alookup s.ratings m.2.1).isSome <;> simp [hc])
    s.movies [] (by simp)

theorem genre_grouped_len (s : RecState) :
    (s.movies.foldl (fun d m =>
        if (alookup s.ratings m.2.1).isSome then
          appendGroup (canon m.2.2) ((calculate_average_rating s m.2.1).1) d
        else d) []).length ≤ s.movies.length := by
  have := length_foldl_group
    (fun d (m : Int × String × String) =>
      if (alookup s.ratings m.2.1).isSome then
        appendGroup (canon m.2.2) ((calculate_average_rating s m.2.1).1) d
      else d)
    (fun m : Int × String × String =>
      if (alookup s.ratings m.2.1).isSome then
        some (canon m.2.2, (calculate_average_rating s m.2.1).1)
      else none)
    (by
      intro d m
      by_cases hc : (alookup s.ratings m.2.1).isSome <;> simp [hc])
    s.movies []
  simpa using this

/-- C5: genre_popularity scores each canonical genre by the unweighted mean
of the per-movie average ratings of the catalog movies of that genre that
have a ratings entry, the average of the movie averages and not a pooled
mean: every returned entry carries exactly that score for some canonical
genre, and when both loads succeeded and n is at least the catalog size,
every canonical genre with at least one rated movie appears with exactly
that score. -/
theorem C5_genre_avg_of_avgs (s : RecState) (n : Int) :
    (∀ p ∈ (genre_popularity s n).1,
       ∃ cg, p.1 = (alookup s.genre_display cg).getD cg ∧
         genreMovieAvgs s cg ≠ [] ∧
         p.2 = listMean (genreMovieAvgs s cg)) ∧
    (s.movies_loaded = true → s.ratings_loaded = true →
      (s.movies.length : Int) ≤ n →
      ∀ cg, genreMovieAvgs s cg ≠ [] →
        ((alookup s.genre_display cg).getD cg, listMean (genreMovieAvgs s cg))
          ∈ (genre_popularity s n).1) := by
  have hgr : ∀ cg,
      (alookup (s.movies.foldl (fun d m =>
        if (alookup s.ratings m.2.1).isSome then
          appendGroup (canon m.2.2) ((calculate_average_rating s m.2.1).1) d
        else d) []) cg).getD [] = genreMovieAvgs s cg := genre_grouped_lookup s
  constructor
  · intro p hp
    unfold genre_popularity at hp
    by_cases hg : (!s.movies_loaded || !s.ratings_loaded) = true
    · rw [if_pos hg] at hp
      simp at hp
    · rw [if_neg hg] at hp
      dsimp only at hp
      have hp2 : p ∈ (s.movies.foldl (fun d m =>
          if (alookup s.ratings m.2.1).isSome then
            appendGroup (canon m.2.2) ((calculate_average_rating s m.2.1).1) d
          else d) []).filterMap (fun g =>
            if g.2 = [] then none
            else some ((alookup s.genre_display g.1).getD g.1, listMean g.2)) := by
        have hsub := (pyTake_sublist n _).subset hp
        exact ((sortRank_perm _).mem_iff).1 hsub
      rw [List.mem_filterMap] at hp2
      obtain ⟨gp, hgp, heq⟩ := hp2
      obtain ⟨cg, vs⟩ := gp
      by_cases hvs : vs = []
      · rw [if_pos hvs] at heq
        exact absurd heq (by simp)
      · rw [if_neg hvs] at heq
        obtain rfl := Option.some_inj.mp heq
        have hlk : alookup (s.movies.foldl (fun d m =>
            if (alookup s.ratings m.2.1).isSome then
              appendGroup (canon m.2.2) ((calculate_average_rating s m.2.1).1) d
            else d) []) cg = some vs :=
          alookup_of_mem_nodup (genre_grouped_nodup s) hgp
        have hvs2 : vs = genreMovieAvgs s cg := by
          have h5 := hgr cg
          rw [hlk] at h5
          simpa using h5
        exact ⟨cg, rfl, hvs2 ▸ hvs, by rw [hvs2]⟩
  · intro hm hr hn cg hne
    unfold genre_popularity
    have hg : (!s.movies_loaded || !s.ratings_loaded) = false := by
      rw [hm, hr]; rfl
    rw [if_neg (by simp [hg])]
    dsimp only
    set grouped := s.movies.foldl (fun d m =>
        if (alookup s.ratings m.2.1).isSome then
          appendGroup (canon m.2.2) ((calculate_average_rating s m.2.1).1) d
        else d) [] with hgrouped
    set GA := grouped.filterMap (fun g =>
        if g.2 = [] then none
        else some ((alookup s.genre_display g.1).getD g.1, listMean g.2))
      with hGAdef
    have hlk : alookup grouped cg = some (genreMovieAvgs s cg) := by
      have h2 : (alookup grouped cg).getD [] ≠ [] := by
        rw [hgr cg]; exact hne
      have h3 := alookup_of_getD_ne_nil h2
      rw [hgr cg] at h3
      exact h3
    have hmem : (cg, genreMovieAvgs s cg) ∈ grouped := alookup_mem hlk
    have hGA : ((alookup s.genre_display cg).getD cg,
        listMean (genreMovieAvgs s cg)) ∈ GA :=
      List.mem_filterMap.2 ⟨(cg, genreMovieAvgs s cg), hmem, by
        rw [if_neg hne]⟩
    have hsorted : ((alookup s.genre_display cg).getD cg,
        listMean (genreMovieAvgs s cg)) ∈ sortRank GA :=
      ((sortRank_perm GA).mem_iff).2 hGA
    have hlen : (sortRank GA).length ≤ n.toNat := by
      have e1 := (sortRank_perm GA).length_eq
      have e2 := List.length_filterMap_le (fun g : String × List ℚ =>
        if g.2 = [] then none
        else some ((alookup s.genre_display g.1).getD g.1, listMean g.2)) grouped
      have e3 : grouped.length ≤ s.movies.length := genre_grouped_len s
      rw [← hGAdef] at e2
      omega
    have h0n : 0 ≤ n :=
      le_trans (Int.natCast_nonneg s.movies.length) hn
    rw [pyTake_all h0n hlen]
    exact hsorted

/-- C5 witness: the completeness part at the concrete state sMain for the
canonical genre drama, every hypothesis discharged by evaluation. -/
theorem C5_witness :
    ((alookup sMain.genre_display "drama").getD "drama",
      listMean (genreMovieAvgs sMain "drama")) ∈ (genre_popularity sMain 10).1 :=
  (C5_genre_avg_of_avgs sMain 10).2 (by decide) (by decide) (by decide)
    "drama" (by decide)

/-! ### C2 -/

/-- C2 counterexample: in the reachable state sInter, built by loading a
rating for inception, then the catalog entry Inception, then another
rating, user 1 has rated the movie under canonical identity inception, yet
recommend returns it, because the exclusion compares stored display names,
not canonical identities. -/
theorem C2_counterexample :
    (recommend_movies sInter 1).1 = ["Inception"] ∧
    (alookup sInter.user_ratings 1).getD [] = [("inception", 5)] ∧
    canon "inception" = canon "Inception" := by
  refine ⟨by decide, by decide, by decide⟩

/-- C2 (amended): for every state and user, recommend returns at most 3
names, ranked by average descending then name ascending; every returned
name is the display name of a catalog movie whose canonical genre equals
the canonical top genre of the user, has a nonempty ratings entry under
that display name, and differs from every display name stored in the
rating list of the user; the exclusion is by display name, which agrees
with canonical identity whenever the catalog was loaded before the
ratings. -/
theorem C2_recommend_properties (s : RecState) (u : Int) :
    (recommend_movies s u).1.length ≤ 3 ∧
    List.Pairwise (fun a b : String =>
      (calculate_average_rating s b).1 < (calculate_average_rating s a).1 ∨
      ((calculate_average_rating s a).1 = (calculate_average_rating s b).1 ∧
        pyLe a b)) (recommend_movies s u).1 ∧
    (∀ name ∈ (recommend_movies s u).1,
      (∃ tg, (user_preference_for_genre s u).1.1 = some tg ∧
        ∃ m ∈ s.movies, m.2.1 = name ∧ canon m.2.2 = canon tg) ∧
      (∀ p ∈ (alookup s.user_ratings u).getD [], p.1 ≠ name) ∧
      (∃ l, alookup s.ratings name = some l ∧ l ≠ [])) := by
  unfold recommend_movies
  by_cases hg : (!s.movies_loaded || !s.ratings_loaded) = true
  · rw [if_pos hg]
    exact ⟨by simp, by simp, by simp⟩
  · rw [if_neg hg]
    cases hupg : (user_preference_for_genre s u).1.1 with
    | none =>
      exact ⟨by simp, by simp, by simp⟩
    | some tg =>
      dsimp only
      by_cases htg : tg = ""
      · rw [if_pos htg]
        exact ⟨by simp, by simp, by simp⟩
      · rw [if_neg htg]
        have hinv : ∀ (m : Int × String × String) (x : String × ℚ),
            (if canon m.2.2 = canon tg then
              if m.2.1 ∈ ((alookup s.user_ratings u).getD []).map
                  (fun p => p.1) then none
              else
                if (alookup s.ratings m.2.1).getD [] = [] then none
                else some (m.2.1, (calculate_average_rating s m.2.1).1)
            else none) = some x →
            x.1 = m.2.1 ∧ x.2 = (calculate_average_rating s x.1).1 ∧
            canon m.2.2 = canon tg ∧
            m.2.1 ∉ ((alookup s.user_ratings u).getD []).map (fun p => p.1) ∧
            (alookup s.ratings m.2.1).getD [] ≠ [] := by
          intro m x hfm
          by_cases h1 : canon m.2.2 = canon tg
          · rw [if_pos h1] at hfm
            by_cases h2 : m.2.1 ∈ ((alookup s.user_ratings u).getD []).map
                (fun p => p.1)
            · rw [if_pos h2] at hfm
              exact absurd hfm (by simp)
            · rw [if_neg h2] at hfm
              by_cases h3 : (alookup s.ratings m.2.1).getD [] = []
              · rw [if_pos h3] at hfm
                exact absurd hfm (by simp)
              · rw [if_neg h3] at hfm
                obtain rfl := Option.some_inj.mp hfm
                exact ⟨rfl, rfl, h1, h2, h3⟩
          · rw [if_neg h1] at hfm
            exact absurd hfm (by simp)
        split
        · exact ⟨by simp, by simp, by simp⟩
        · refine ⟨?_, ?_, ?_⟩
          · rw [List.length_map]
            exact (length_pyTake_le 3 _ (by norm_num)).trans (by norm_num)
          · refine List.pairwise_map.2
              (List.Pairwise.imp_of_mem ?_ (pairwise_rank_pyTake 3 _))
            intro a b ha hb hr
            have haC := (sortRank_perm _).mem_iff.1 ((pyTake_sublist 3 _).subset ha)
            have hbC := (sortRank_perm _).mem_iff.1 ((pyTake_sublist 3 _).subset hb)
            rw [List.mem_filterMap] at haC hbC
            obtain ⟨ma, _, hma⟩ := haC
            obtain ⟨mb, _, hmb⟩ := hbC
            have hQa := (hinv ma a hma).2.1
            have hQb := (hinv mb b hmb).2.1
            unfold rankLE at hr
            rw [hQa, hQb] at hr
            exact hr
          · intro name hname
            rw [List.mem_map] at hname
            obtain ⟨x, hx, hx1⟩ := hname
            have hxC := (sortRank_perm _).mem_iff.1 ((pyTake_sublist 3 _).subset hx)
            rw [List.mem_filterMap] at hxC
            obtain ⟨m, hm, hfm⟩ := hxC
            obtain ⟨he1, _, he3, he4, he5⟩ := hinv m x hfm
            rw [he1] at hx1
            subst hx1
            refine ⟨⟨tg, rfl, m, hm, rfl, he3⟩, ?_, ?_⟩
            · intro p hp heq
              exact he4 (heq ▸ List.mem_map_of_mem (fun p => p.1) hp)
            · exact ⟨(alookup s.ratings m.2.1).getD [],
                alookup_of_getD_ne_nil he5, he5⟩

/-- C2 witness: the catalog and genre facts for the concrete recommendation
Delta produced for user 3 in the state sMain. -/
theorem C2_witness :
    ∃ tg, (user_preference_for_genre sMain 3).1.1 = some tg ∧
      ∃ m ∈ sMain.movies, m.2.1 = "Delta" ∧ canon m.2.2 = canon tg :=
  ((C2_recommend_properties sMain 3).2.2 "Delta" (by decide)).1

/-! ### C1 -/

theorem user_grouped_lookup (s : RecState) (u : Int) (cg : String) :
    (alookup (((alookup s.user_ratings u).getD []).foldl (fun d p =>
        (resolveGenre s p.1).elim d (fun c => appendGroup c p.2 d)) []) cg).getD []
      = userGenreRatings s u cg := by
  rw [alookupD_foldl_group _
    (fun p : String × ℚ => (resolveGenre s p.1).map (fun c => (c, p.2)))
    (by
      intro d p
      cases hrg : resolveGenre s p.1 <;> simp [hrg])
    ((alookup s.user_ratings u).getD []) [] cg]
  rw [filterMap_group_extract_opt (fun p : String × ℚ => resolveGenre s p.1)
    (fun p => p.2) cg ((alookup s.user_ratings u).getD [])]
  rfl

theorem user_grouped_nodup (s : RecState) (u : Int) :
    ((((alookup s.user_ratings u).getD []).foldl (fun d p =>
        (resolveGenre s p.1).elim d (fun c => appendGroup c p.2 d)) []).map
          Prod.fst).Nodup :=
  nodup_keys_foldl_group _
    (fun p : String × ℚ => (resolveGenre s p.1).map (fun c => (c, p.2)))
    (by
      intro d p
      cases hrg : resolveGenre s p.1 <;> simp [hrg])
    ((alookup s.user_ratings u).getD []) [] (by simp)

theorem user_grouped_values_ne (s : RecState) (u : Int) :
    ∀ g ∈ ((alookup s.user_ratings u).getD []).foldl (fun d p =>
        (resolveGenre s p.1).elim d (fun c => appendGroup c p.2 d)) [],
      g.2 ≠ [] :=
  values_nonempty_foldl_group _
    (fun p : String × ℚ => (resolveGenre s p.1).map (fun c => (c, p.2)))
    (by
      intro d p
      cases hrg : resolveGenre s p.1 <;> simp [hrg])
    ((alookup s.user_ratings u).getD []) [] (by simp)

/-- C1 counterexample: in the reachable state sZero, user 7 has a rating on
the catalog movie Zero, yet userTopGenre returns the null sentinel instead
of the highest-mean genre Action, because the catalog id 0 fails the
truthiness test of the lookup result. -/
theorem C1_counterexample :
    alookup sZero.movies 0 = some ("Zero", "Action") ∧
    (alookup sZero.user_ratings 7).getD [] = [("Zero", 5)] ∧
    alookup sZero.movie_name_to_id (canon "Zero") = some 0 ∧
    (user_preference_for_genre sZero 7).1.1 = none := by
  refine ⟨by decide, by decide, by decide, by decide⟩

/-- C1 (amended): for every user with at least one rating that resolves
through the catalog to a nonzero movie id, userTopGenre returns the display
genre and mean of a resolved canonical genre of the user whose mean is
highest among all resolved genres of the user, and on mean ties its display
genre is alphabetically greatest: every other resolved genre has a strictly
smaller mean, or the same mean and a display genre at most as large. -/
theorem C1_user_top_genre_max (s : RecState) (u : Int)
    (hm : s.movies_loaded = true) (hr : s.ratings_loaded = true)
    (hex : ∃ p ∈ (alookup s.user_ratings u).getD [],
      (resolveGenre s p.1).isSome) :
    ∃ cg,
      (user_preference_for_genre s u).1 =
        (some (dispG s cg), specGenreMean s u cg) ∧
      userGenreRatings s u cg ≠ [] ∧
      (∀ cg', userGenreRatings s u cg' ≠ [] →
        specGenreMean s u cg' < specGenreMean s u cg ∨
        (specGenreMean s u cg' = specGenreMean s u cg ∧
          pyLe (dispG s cg') (dispG s cg))) := by
  unfold user_preference_for_genre
  rw [if_neg (by simp [hm, hr])]
  obtain ⟨p0, hp0, hres0⟩ := hex
  obtain ⟨cg0, hcg0⟩ := Option.isSome_iff_exists.mp hres0
  have hu0 : userGenreRatings s u cg0 ≠ [] := by
    unfold userGenreRatings
    exact List.ne_nil_of_mem (List.mem_map_of_mem (fun p => p.2)
      (List.mem_filter.2 ⟨hp0, by simp [hcg0]⟩))
  have hlk0 : (alookup (((alookup s.user_ratings u).getD []).foldl (fun d p =>
      (resolveGenre s p.1).elim d (fun c => appendGroup c p.2 d)) []) cg0).getD []
        ≠ [] := by
    rw [user_grouped_lookup]
    exact hu0
  have hFne : ((alookup s.user_ratings u).getD []).foldl (fun d p =>
      (resolveGenre s p.1).elim d (fun c => appendGroup c p.2 d)) [] ≠ [] := by
    intro hF
    rw [hF] at hlk0
    simp [alookup] at hlk0
  rw [if_neg hFne]
  dsimp only
  cases hga : (((alookup s.user_ratings u).getD []).foldl (fun d p =>
      (resolveGenre s p.1).elim d (fun c => appendGroup c p.2 d)) []).map
        (fun g => (g.1, listMean g.2)) with
  | nil =>
    exact absurd (List.map_eq_nil_iff.mp hga) hFne
  | cons hh tt =>
    dsimp only
    have hmmem : pymax (fun g => (g.2, dispG s g.1)) hh tt ∈ hh :: tt :=
      pymax_mem _ tt hh
    rw [← hga, List.mem_map] at hmmem
    obtain ⟨gp, hgpmem, hgpe⟩ := hmmem
    obtain ⟨cg1, vs1⟩ := gp
    have hlk1 : alookup (((alookup s.user_ratings u).getD []).foldl (fun d p =>
        (resolveGenre s p.1).elim d (fun c => appendGroup c p.2 d)) []) cg1 =
          some vs1 :=
      alookup_of_mem_nodup (user_grouped_nodup s u) hgpmem
    have hvs1 : vs1 = userGenreRatings s u cg1 := by
      have h5 := user_grouped_lookup s u cg1
      rw [hlk1] at h5
      simpa using h5
    have hvs1ne : userGenreRatings s u cg1 ≠ [] := by
      rw [← hvs1]
      exact user_grouped_values_ne s u (cg1, vs1) hgpmem
    refine ⟨cg1, ?_, hvs1ne, ?_⟩
    · rw [← hgpe]
      unfold specGenreMean
      rw [← hvs1]
    · intro cg' hcg'
      have hlk' : alookup (((alookup s.user_ratings u).getD []).foldl (fun d p =>
          (resolveGenre s p.1).elim d (fun c => appendGroup c p.2 d)) []) cg' =
            some (userGenreRatings s u cg') := by
        have h2 : (alookup (((alookup s.user_ratings u).getD []).foldl (fun d p =>
            (resolveGenre s p.1).elim d (fun c => appendGroup c p.2 d)) [])
              cg').getD [] ≠ [] := by
          rw [user_grouped_lookup]
          exact hcg'
        have h3 := alookup_of_getD_ne_nil h2
        rw [user_grouped_lookup] at h3
        exact h3
      have hmem' : (cg', userGenreRatings s u cg') ∈
          ((alookup s.user_ratings u).getD []).foldl (fun d p =>
            (resolveGenre s p.1).elim d (fun c => appendGroup c p.2 d)) [] :=
        alookup_mem hlk'
      have hmemMap : (cg', listMean (userGenreRatings s u cg')) ∈
          (((alookup s.user_ratings u).getD []).foldl (fun d p =>
            (resolveGenre s p.1).elim d (fun c => appendGroup c p.2 d)) []).map
              (fun g => (g.1, listMean g.2)) :=
        List.mem_map_of_mem (fun g => (g.1, listMean g.2)) hmem'
      rw [hga] at hmemMap
      have hnl := pymax_not_lt (fun g => (g.2, dispG s g.1)) tt hh _ hmemMap
      rw [not_prefLt_iff] at hnl
      rw [← hgpe] at hnl
      unfold specGenreMean
      rw [← hvs1]
      exact hnl

/-- C1 witness: the amended statement at the concrete state sMain for
user 2, whose resolved ratings are Gamma in Drama and Alpha in Action. -/
theorem C1_witness :
    ∃ cg,
      (user_preference_for_genre sMain 2).1 =
        (some (dispG sMain cg), specGenreMean sMain 2 cg) ∧
      userGenreRatings sMain 2 cg ≠ [] ∧
      (∀ cg', userGenreRatings sMain 2 cg' ≠ [] →
        specGenreMean sMain 2 cg' < specGenreMean sMain 2 cg ∨
        (specGenreMean sMain 2 cg' = specGenreMean sMain 2 cg ∧
          pyLe (dispG sMain cg') (dispG sMain cg))) :=
  C1_user_top_genre_max sMain 2 (by decide) (by decide) (by decide)

/-! ### C4 -/

/-- C4 counterexample: with a rating stored for the uncatalogued movie A,
querying average with the differently cased name a returns 0 although one
rating with value 4 is stored under the canonical identity of the query,
so the result is not casing-independent for names absent from the
catalog. -/
theorem C4_counterexample :
    (calculate_average_rating sRatOnly "a").1 = 0 ∧
    (canonRatings sRatOnly (canon "a")).map (fun p => p.1) = [4] := by
  refine ⟨by decide, by decide⟩

/-- C4 (amended): for a nonempty queried name, average returns the mean of
all rating values stored under the canonical identity of the query,
duplicates included, and 0.0 when there are none, provided the state is
coherent for that query: the resolved display key canonicalises back to
the canonical query, the ratings keys are pairwise distinct, and every
stored key of that canonical identity equals the resolved display key.
The coherence holds in particular whenever the catalog was loaded before
all ratings and the query resolves through the catalog. -/
theorem C4_average_canonical_mean (s : RecState) (q : String)
    (hq : q ≠ "")
    (hdisp : canon (displayName s q) = canon q)
    (hnd : (s.ratings.map Prod.fst).Nodup)
    (hco : ∀ kv ∈ s.ratings, canon kv.1 = canon q → kv.1 = displayName s q) :
    (calculate_average_rating s q).1 =
      if canonRatings s (canon q) = [] then 0
      else listMean ((canonRatings s (canon q)).map (fun p => p.1)) := by
  have hfilter := filter_eq_alookup_singleton
    (fun k => decide (canon k = canon q)) (displayName s q) s.ratings hnd
    (by simp [hdisp])
    (by
      intro kv hkv hpk
      exact hco kv hkv (by simpa using hpk))
  have hcr : canonRatings s (canon q) =
      (match alookup s.ratings (displayName s q) with
       | some v => [(displayName s q, v)]
       | none => ([] : List (String × List (ℚ × Int)))).flatMap
        (fun kv => kv.2) := by
    unfold canonRatings
    rw [hfilter]
    cases alookup s.ratings (displayName s q) <;> rfl
  unfold calculate_average_rating
  rw [if_neg hq]
  dsimp only
  cases halk : alookup s.ratings (displayName s q) with
  | none =>
    rw [halk] at hcr
    simp only [List.flatMap_nil] at hcr
    simp [hcr]
  | some l =>
    rw [halk] at hcr
    simp only [List.flatMap_cons, List.flatMap_nil, List.append_nil] at hcr
    by_cases hl : l = []
    · simp [hl, hcr]
    · rw [hcr]
      simp only [if_neg hl]
      simp [listMean, List.length_map]

/-- C4 witness: the amended statement at sMain for the query ALPHA with a
trailing blank, which resolves to the catalog display name Alpha. -/
theorem C4_witness :
    (calculate_average_rating sMain "ALPHA ").1 =
      if canonRatings sMain (canon "ALPHA ") = [] then 0
      else listMean ((canonRatings sMain (canon "ALPHA ")).map (fun p => p.1)) :=
  C4_average_canonical_mean sMain "ALPHA " (by decide) (by decide) (by decide)
    (by decide)
